import Mathlib

/-
Shallow embedding of the installer pipeline of Code-Assist-CLI
(src/download/mod.rs, src/config/mod.rs, src/tools/claude_code.rs,
src/platform/mod.rs).

Modelling conventions:
 - The filesystem is an association list from paths (lists of components,
   mirroring PathBuf::join) to file contents (String).  Directories are
   implicit: a directory "exists" when some file lies at or below it.
 - Network access (reqwest), the SHA-256 digest (sha2 crate),
   JSON parsing/serialisation (serde_json), subprocess execution and the
   platform collaborators (import_certificate, set_user_env_var,
   add_to_path, the VS Code CLI) are external crates or out-of-scope
   collaborators; they enter the model as explicit oracle parameters.
 - Fallible Rust functions returning anyhow::Result are embedded as
   Except Err; functions that touch the filesystem also return the
   resulting filesystem state.
-/

namespace CodeAssist

/-- Digest bytes (values 0..255). -/
abbrev Bytes := List Nat

/-- A filesystem path, one component per PathBuf::join step. -/
abbrev Path := List String

/-- The filesystem: an association list from paths to file contents. -/
abbrev FS := List (Path × String)

/-- Error kinds of the embedded anyhow errors. -/
inductive Err where
  | network
  | httpError
  | ioError
  | parseError
  | noVersion
  | noManifest
  | noFallback
  | localCorrupted
  | platformNotFound
  | launchError
  | subprocessFailed
  | envError
deriving DecidableEq

/-- DownloadSource from src/download/mod.rs. -/
inductive DownloadSource where
  | Remote
  | LocalFallback
deriving DecidableEq

/-- Look up the contents of the file at path p. -/
def fsLookup (fs : FS) (p : Path) : Option String :=
  match fs with
  | [] => none
  | (q, c) :: rest => if q = p then some c else fsLookup rest p

/-- Drop every entry at exactly path p. -/
def fsErase (fs : FS) (p : Path) : FS :=
  fs.filter (fun e => decide (e.1 ≠ p))

/-- Create/truncate-and-write the file at p (File::create / fs::write / fs::copy). -/
def fsWrite (fs : FS) (p : Path) (c : String) : FS :=
  (p, c) :: fsErase fs p

/-- std::fs::remove_file, with the Rust call sites ignoring its Result. -/
def fsRemoveFile (fs : FS) (p : Path) : FS :=
  fsErase fs p

/-- std::fs::remove_dir_all: drop everything at or below p. -/
def fsRemoveDirAll (fs : FS) (p : Path) : FS :=
  fs.filter (fun e => !(List.isPrefixOf p e.1))

/-- Path::exists — true when a file lies at or below p. -/
def existsPath (fs : FS) (p : Path) : Bool :=
  fs.any (fun e => List.isPrefixOf p e.1)

/-- The name of p when p is directly inside dir, else none. -/
def childName (dir : Path) (p : Path) : Option String :=
  if p.length = dir.length + 1 && List.isPrefixOf dir p then p.getLast? else none

/-- std::fs::read_dir restricted to files directly inside dir. -/
def readDir (fs : FS) (dir : Path) : List String :=
  fs.filterMap (fun e => childName dir e.1)

/-- Lowercase hexadecimal digit, as produced by hex::encode. -/
def hexDigit (n : Nat) : Char :=
  if n < 10 then Char.ofNat (48 + n) else Char.ofNat (87 + n)

/-- hex::encode — two lowercase hex digits per byte, high nibble first. -/
def hexEncode (bs : Bytes) : String :=
  String.mk (bs.flatMap (fun b => [hexDigit (b / 16 % 16), hexDigit (b % 16)]))

/-- serde_json::Value.  Numbers are embedded as integers; the merge logic
never inspects numbers, so this loses nothing the claims need. -/
inductive Json where
  | null
  | bool (b : Bool)
  | num (n : Int)
  | str (s : String)
  | arr (xs : List Json)
  | obj (kvs : List (String × Json))

/-- First-match lookup in a JSON object's key/value list. -/
def lookupKV (k : String) : List (String × Json) → Option Json
  | [] => none
  | (q, v) :: rest => if q = k then some v else lookupKV k rest

/-- Map::insert — replace the (first) binding of k, else append. -/
def mapInsert (k : String) (v : Json) : List (String × Json) → List (String × Json)
  | [] => [(k, v)]
  | (q, w) :: rest => if q = k then (k, v) :: rest else (q, w) :: mapInsert k v rest

/-- The insert loop of merge_json_settings:
for (key, value) in source_obj, dest_obj.insert(key, value). -/
def mergeObj (so dobj : List (String × Json)) : List (String × Json) :=
  so.foldl (fun acc kv => mapInsert kv.1 kv.2 acc) dobj

/-- The if-let in merge_json_settings: the destination document is changed
only when both roots are objects. -/
def mergeVal (s d : Json) : Json :=
  match s, d with
  | .obj so, .obj dobj => .obj (mergeObj so dobj)
  | _, _ => d

/-- serde_json::Value::is_object. -/
def Json.isObj : Json → Bool
  | .obj _ => true
  | _ => false

/-- Value indexing, as in the platforms lookup on the manifest: object
field lookup, Null otherwise. -/
def Json.index (j : Json) (k : String) : Json :=
  match j with
  | .obj kvs => (lookupKV k kvs).getD .null
  | _ => .null

/-- Value::as_str. -/
def Json.asStr : Json → Option String
  | .str s => some s
  | _ => none

/-- Top-level keys of an object are pairwise distinct (an invariant of every
document produced by serde_json's Map, which cannot hold duplicate keys). -/
def Json.topKeysNodup : Json → Prop
  | .obj kvs => (kvs.map Prod.fst).Nodup
  | _ => True

instance (j : Json) : Decidable (Json.topKeysNodup j) :=
  match j with
  | .obj kvs => List.nodupDecidable (kvs.map Prod.fst)
  | .null => isTrue trivial
  | .bool _ => isTrue trivial
  | .num _ => isTrue trivial
  | .str _ => isTrue trivial
  | .arr _ => isTrue trivial

/-- Outcome of one reqwest::blocking::get, from the caller's point of view:
the request itself fails; or a response arrives with a status (is_success)
and the body is delivered in full; or the status is a success but the body
stream breaks partway, delivering only a prefix before an IO error. -/
inductive NetResult where
  | transportError
  | response (ok : Bool) (body : String)
  | midStream (part : String)

/-- The network oracle, indexed by URL. -/
abbrev Net := String → NetResult

def GCS_BUCKET : String :=
  "https://storage.googleapis.com/claude-code-dist-86c565f3-f756-42ad-8dfa-d59b1c096819/claude-code-releases"

/-- URL of the latest resource. -/
def latestUrl : String := GCS_BUCKET ++ "/latest"

/-- URL of the versioned manifest. -/
def manifestUrl (version : String) : String :=
  GCS_BUCKET ++ "/" ++ version ++ "/manifest.json"

/-- URL of the versioned binary. -/
def binaryUrl (version platform binary_name : String) : String :=
  GCS_BUCKET ++ "/" ++ version ++ "/" ++ platform ++ "/" ++ binary_name

/-- local_dir.join(version).join(platform).join(binary_name). -/
def localBinaryPath (local_dir : Path) (version platform binary_name : String) : Path :=
  local_dir ++ [version, platform, binary_name]

/-- download_from_url (src/download/mod.rs:141).  The status is checked
before File::create, so a transport failure or error status leaves the
filesystem untouched; a mid-stream failure leaves the prefix that was
already written to output_path. -/
def download_from_url (net : Net) (fs : FS) (url : String) (output_path : Path) :
    Except Err Unit × FS :=
  match net url with
  | .transportError => (.error .network, fs)
  | .response ok body =>
      if ok then (.ok (), fsWrite fs output_path body)
      else (.error .httpError, fs)
  | .midStream part => (.error .network, fsWrite fs output_path part)

/-- verify_checksum (src/download/mod.rs:180): stream the file through
Sha256 in 8192-byte chunks (incremental hashing of the chunks equals
hashing the whole contents — a property of the sha2 crate, which enters the
model as the oracle sha), hex-encode, compare for equality.  The file is
only read; the filesystem is returned unchanged. -/
def verify_checksum (sha : String → Bytes) (fs : FS) (file_path : Path) (expected : String) :
    Except Err Bool × FS :=
  match fsLookup fs file_path with
  | none => (.error .ioError, fs)
  | some contents => (.ok (hexEncode (sha contents) == expected), fs)

/-- get_latest_version (src/download/mod.rs:17).  A success-status response
whose body read fails (midStream) propagates through response.text()? and
does not fall back to the local file. -/
def get_latest_version (net : Net) (fs : FS) (local_dir : Path) :
    Except Err (String × DownloadSource) :=
  match net latestUrl with
  | .response true body => .ok (body.trim, .Remote)
  | .midStream _ => .error .network
  | _ =>
    match fsLookup fs (local_dir ++ ["latest"]) with
    | some content => .ok (content.trim, .LocalFallback)
    | none => .error .noVersion

/-- get_manifest (src/download/mod.rs:46).  Remote parse is response.json()?
(parse failure propagates, no local fallback); only a failed request or a
non-success status reaches the local branch. -/
def get_manifest (parse : String → Option Json) (net : Net) (fs : FS)
    (version : String) (local_dir : Path) :
    Except Err (Json × DownloadSource) :=
  match net (manifestUrl version) with
  | .response true body =>
      match parse body with
      | some manifest => .ok (manifest, .Remote)
      | none => .error .parseError
  | .midStream _ => .error .network
  | _ =>
    match fsLookup fs (local_dir ++ [version, "manifest.json"]) with
    | some content =>
        match parse content with
        | some manifest => .ok (manifest, .LocalFallback)
        | none => .error .parseError
    | none => .error .noManifest

/-- The local-fallback block of download_binary (src/download/mod.rs:120):
copy local_dir/version/platform/binary_name over output_path when present,
verify, delete on mismatch. -/
def download_local_fallback (sha : String → Bytes)
    (version platform binary_name : String) (local_dir output_path : Path)
    (expected_checksum : String) (fs1 : FS) : Except Err DownloadSource × FS :=
  match fsLookup fs1 (localBinaryPath local_dir version platform binary_name) with
  | some content =>
      let fs2 := fsWrite fs1 output_path content
      match verify_checksum sha fs2 output_path expected_checksum with
      | (.ok true, fs3) => (.ok .LocalFallback, fs3)
      | (.ok false, fs3) => (.error .localCorrupted, fsRemoveFile fs3 output_path)
      | (.error e, fs3) => (.error e, fs3)
  | none => (.error .noFallback, fs1)

/-- download_binary (src/download/mod.rs:73). -/
def download_binary (sha : String → Bytes) (net : Net) (fs : FS)
    (version platform binary_name : String) (local_dir output_path : Path)
    (expected_checksum : String) : Except Err DownloadSource × FS :=
  let url := binaryUrl version platform binary_name
  let remote := download_from_url net fs url output_path
  match remote with
  | (.ok _, fs1) =>
      match verify_checksum sha fs1 output_path expected_checksum with
      | (.ok true, fs2) => (.ok .Remote, fs2)
      | (.ok false, fs2) =>
          download_local_fallback sha version platform binary_name local_dir
            output_path expected_checksum (fsRemoveFile fs2 output_path)
      | (.error e, fs2) => (.error e, fs2)
  | (.error _, fs1) =>
      download_local_fallback sha version platform binary_name local_dir
        output_path expected_checksum fs1

/-- Compile-target OS selection (the cfg(target_os) branches). -/
inductive OS where
  | windows
  | macos
  | linuxdev
deriving DecidableEq

/-- PlatformPaths (src/platform/mod.rs), an externally supplied record. -/
structure PlatformPaths where
  home_dir : Path
  claude_config_dir : Path
  vscode_settings_dir : Path
  certs_dir : Path

/-- get_platform_config_dir (src/config/mod.rs:7). -/
def get_platform_config_dir (os : OS) (local_dir : Path) : Path :=
  match os with
  | .windows => local_dir ++ ["WIN", "USER-DIRECTORY"]
  | .macos => local_dir ++ ["MACOS", "USER-DIRECTORY"]
  | .linuxdev => local_dir ++ ["LINUX", "USER-DIRECTORY"]

/-- get_vscode_settings_source (src/config/mod.rs:25). -/
def get_vscode_settings_source (os : OS) (config_dir : Path) : Path :=
  match os with
  | .windows => config_dir ++ ["AppData", "Roaming", "Code", "User", "settings.json"]
  | .macos => config_dir ++ ["Library", "Application Support", "Code", "User", "settings.json"]
  | .linuxdev => config_dir ++ [".config", "Code", "User", "settings.json"]

/-- merge_json_settings (src/config/mod.rs:240).  Read both files, parse both
(parse failures propagate with context), perform the top-level insert loop
when both roots are objects, write the destination back pretty-printed.
parse and pretty are the serde_json oracles. -/
def merge_json_settings (parse : String → Option Json) (pretty : Json → String)
    (fs : FS) (source dest : Path) : Except Err Unit × FS :=
  match fsLookup fs source with
  | none => (.error .ioError, fs)
  | some source_content =>
  match fsLookup fs dest with
  | none => (.error .ioError, fs)
  | some dest_content =>
  match parse source_content with
  | none => (.error .parseError, fs)
  | some source_json =>
  match parse dest_content with
  | none => (.error .parseError, fs)
  | some dest_json =>
  (.ok (), fsWrite fs dest (pretty (mergeVal source_json dest_json)))

/-- deploy_claude_settings (src/config/mod.rs:84): missing source is skipped;
existing destination is merged (merge errors propagate), otherwise the
source file is copied byte-for-byte. -/
def deploy_claude_settings (parse : String → Option Json) (pretty : Json → String)
    (config_dir : Path) (paths : PlatformPaths) (fs : FS) : Except Err Unit × FS :=
  let source := config_dir ++ [".claude", "settings.json"]
  match fsLookup fs source with
  | none => (.ok (), fs)
  | some source_content =>
    let dest := paths.claude_config_dir ++ ["settings.json"]
    if (fsLookup fs dest).isSome then
      merge_json_settings parse pretty fs source dest
    else
      (.ok (), fsWrite fs dest source_content)

/-- The body of the per-directory certificate loop of deploy_certificates:
skip macOS resource forks, copy each .crt file into certs_dir, then attempt
the trust import, whose outcome is only printed. -/
def deployCertsFrom (importCert : Path → Except Err Unit)
    (paths : PlatformPaths) (src : Path) (fs : FS) : FS :=
  (readDir fs src).foldl (fun acc name =>
    if name.startsWith "._" then acc
    else if name.endsWith ".crt" then
      match fsLookup acc (src ++ [name]) with
      | some content =>
          let dest := paths.certs_dir ++ [name]
          let acc1 := fsWrite acc dest content
          let _w := importCert dest
          acc1
      | none => acc
    else acc) fs

/-- deploy_certificates (src/config/mod.rs:113): two candidate source
directories, each deployed when present; always returns Ok. -/
def deploy_certificates (importCert : Path → Except Err Unit)
    (config_dir : Path) (paths : PlatformPaths) (fs : FS) : Except Err Unit × FS :=
  let s1 := config_dir ++ [".continue", "certs"]
  let s2 := config_dir ++ ["certs"]
  let fs1 := if existsPath fs s1 then deployCertsFrom importCert paths s1 fs else fs
  let fs2 := if existsPath fs1 s2 then deployCertsFrom importCert paths s2 fs1 else fs1
  (.ok (), fs2)

/-- deploy_vscode_settings (src/config/mod.rs:176): platform-specific source
first, then the flat fallback filename, else skip; merge or copy as for the
Claude settings. -/
def deploy_vscode_settings (parse : String → Option Json) (pretty : Json → String)
    (os : OS) (config_dir : Path) (paths : PlatformPaths) (fs : FS) :
    Except Err Unit × FS :=
  let go : Path → String → Except Err Unit × FS := fun source source_content =>
    let dest := paths.vscode_settings_dir ++ ["settings.json"]
    if (fsLookup fs dest).isSome then
      merge_json_settings parse pretty fs source dest
    else
      (.ok (), fsWrite fs dest source_content)
  let platform_source := get_vscode_settings_source os config_dir
  match fsLookup fs platform_source with
  | some c => go platform_source c
  | none =>
    let alt_source := config_dir ++ ["vscode-settings.json"]
    match fsLookup fs alt_source with
    | some c => go alt_source c
    | none => (.ok (), fs)

/-- configure_environment (src/config/mod.rs:216): pick the first present
Zscaler certificate and persist NODE_EXTRA_CA_CERTS; the set_user_env_var
failure propagates. -/
def configure_environment (setEnv : String → Path → Except Err Unit)
    (paths : PlatformPaths) (fs : FS) : Except Err Unit × FS :=
  let zscaler := paths.certs_dir ++ ["ZscalerRootCertificate-2048-SHA256.crt"]
  let alt := paths.certs_dir ++ ["zscaler-root.crt"]
  let cert := if existsPath fs zscaler then some zscaler
    else if existsPath fs alt then some alt else none
  match cert with
  | some c =>
      match setEnv "NODE_EXTRA_CA_CERTS" c with
      | .ok _ => (.ok (), fs)
      | .error e => (.error e, fs)
  | none => (.ok (), fs)

/-- deploy_configs (src/config/mod.rs:58): skip everything when the platform
config directory is absent, else run the four steps in order, each step's
error propagating via the question-mark operator. -/
def deploy_configs (parse : String → Option Json) (pretty : Json → String)
    (importCert : Path → Except Err Unit) (setEnv : String → Path → Except Err Unit)
    (os : OS) (local_dir : Path) (paths : PlatformPaths) (fs : FS) :
    Except Err Unit × FS :=
  let platform_config_dir := get_platform_config_dir os local_dir
  if !(existsPath fs platform_config_dir) then (.ok (), fs)
  else
    match deploy_claude_settings parse pretty platform_config_dir paths fs with
    | (.error e, fs1) => (.error e, fs1)
    | (.ok _, fs1) =>
    match deploy_certificates importCert platform_config_dir paths fs1 with
    | (.error e, fs2) => (.error e, fs2)
    | (.ok _, fs2) =>
    match deploy_vscode_settings parse pretty os platform_config_dir paths fs2 with
    | (.error e, fs3) => (.error e, fs3)
    | (.ok _, fs3) =>
    configure_environment setEnv paths fs3

/-- install_vsix_extensions (src/config/mod.rs:265): absent directory is
skipped; a VS Code CLI that cannot be launched (output() returns Err)
propagates fatally; a non-zero exit for a package is only printed.  The
oracle codeRun returns none for a launch failure, some exitOk otherwise. -/
def install_vsix_extensions (codeRun : Path → Option Bool) (fs : FS)
    (vsix_dir : Path) : Except Err Unit :=
  if existsPath fs vsix_dir then
    if (readDir fs vsix_dir).all (fun name =>
        !(name.endsWith ".vsix") || (codeRun (vsix_dir ++ [name])).isSome)
    then .ok () else .error .launchError
  else .ok ()

/-- ClaudeCode::install (src/tools/claude_code.rs:56), from version
resolution through PATH registration.  platform_id and binary_name stand
for platform::get_platform_id() and platform::get_binary_name()
(compile-target constants); runProc models Command::output on the
downloaded binary (none: launch failure; some b: exit success flag);
addPath models platform::add_to_path, whose failure is only printed. -/
def install (sha : String → Bytes) (net : Net) (parse : String → Option Json)
    (pretty : Json → String) (importCert : Path → Except Err Unit)
    (setEnv : String → Path → Except Err Unit) (runProc : Path → String → Option Bool)
    (codeRun : Path → Option Bool) (addPath : Path → Except Err Unit)
    (os : OS) (platform_id binary_name : String) (local_dir : Path)
    (paths : PlatformPaths) (fs : FS) : Except Err Unit × FS :=
  match get_latest_version net fs local_dir with
  | .error e => (.error e, fs)
  | .ok (version, _src) =>
  match get_manifest parse net fs version local_dir with
  | .error e => (.error e, fs)
  | .ok (manifest, _msrc) =>
  match (((manifest.index "platforms").index platform_id).index "checksum").asStr with
  | none => (.error .platformNotFound, fs)
  | some checksum =>
  let download_dir := paths.home_dir ++ [".claude", "downloads"]
  let temp_binary := download_dir ++ ["claude-" ++ version ++ "-" ++ platform_id]
  match download_binary sha net fs version platform_id binary_name local_dir
      temp_binary checksum with
  | (.error e, fs1) => (.error e, fs1)
  | (.ok _bsrc, fs1) =>
  match runProc temp_binary "install" with
  | none => (.error .launchError, fs1)
  | some false => (.error .subprocessFailed, fs1)
  | some true =>
  let fs2 := fsRemoveFile fs1 temp_binary
  match install_vsix_extensions codeRun fs2 (local_dir ++ ["VSIX"]) with
  | .error e => (.error e, fs2)
  | .ok _ =>
  match deploy_configs parse pretty importCert setEnv os local_dir paths fs2 with
  | (.error e, fs3) => (.error e, fs3)
  | (.ok _, fs3) =>
  let _w := addPath (paths.home_dir ++ [".claude", "bin"])
  (.ok (), fs3)

/-- ClaudeCode::uninstall (src/tools/claude_code.rs:171).  runProc models
Command::output on the installed binary with the "uninstall" argument
(none: cannot be launched; some b: exit success flag).  On any failure the
manual cleanup removes the binary file and the bin subdirectory of the
tool-config directory, and the function still returns Ok. -/
def uninstall (runProc : Path → String → Option Bool) (binary_name : String)
    (paths : PlatformPaths) (fs : FS) : Except Err Unit × FS :=
  let binary_path := paths.home_dir ++ [".claude", "bin", binary_name]
  if (fsLookup fs binary_path).isSome then
    match runProc binary_path "uninstall" with
    | some true => (.ok (), fs)
    | _ =>
      let fs1 := fsRemoveFile fs binary_path
      let claude_dir := paths.claude_config_dir
      let fs2 := if existsPath fs1 claude_dir
        then fsRemoveDirAll fs1 (claude_dir ++ ["bin"]) else fs1
      (.ok (), fs2)
  else (.ok (), fs)

/-- Remote attempt fails outright: the request errors or the status is not
a success.  (Success-status responses with failing or unparsable bodies are
treated separately; see the get_manifest theorems.) -/
def remoteFails (net : Net) (url : String) : Prop :=
  net url = .transportError ∨ ∃ body, net url = .response false body

/-- Any failing remote outcome for a streamed binary download, the
mid-stream break included. -/
def remoteAttemptFails (net : Net) (url : String) : Prop :=
  remoteFails net url ∨ ∃ s, net url = .midStream s

/-
Concrete oracles and fixtures used by the witness and counterexample
theorems below.
-/

/-- A digest determined by the content length: distinct test contents of
distinct lengths get distinct digests. -/
def shaLen : String → Bytes := fun s => [s.length % 256]

/-- A network on which every request fails at transport level. -/
def netDown : Net := fun _ => .transportError

/-- A network on which every body stream breaks after "PARTIAL". -/
def netMid : Net := fun _ => .midStream "PARTIAL"

def importCertOk : Path → Except Err Unit := fun _ => .ok ()

def importCertFail : Path → Except Err Unit := fun _ => .error .envError

def setEnvOk : String → Path → Except Err Unit := fun _ _ => .ok ()

def runProcOk : Path → String → Option Bool := fun _ _ => some true

def runProcFail : Path → String → Option Bool := fun _ _ => some false

def codeRunOk : Path → Option Bool := fun _ => some true

def addPathOk : Path → Except Err Unit := fun _ => .ok ()

/-- An injective-enough serializer for the fixtures below. -/
def prettyW : Json → String := fun _ => "PRETTY"

/-- Manifest fixture: platforms.darwin-arm64.checksum = "03", the
lowercase-hex shaLen digest of "BIN". -/
def maniC6 : Json :=
  .obj [("platforms", .obj [("darwin-arm64", .obj [("checksum", .str "03")])])]

/-- Parser fixture for the install counterexample: the manifest body and the
source settings parse, the destination settings file does not. -/
def parseC6 : String → Option Json := fun s =>
  if s = "MANI" then some maniC6
  else if s = "SRC" then some Json.null
  else none

/-- Network fixture for the install counterexample: version, manifest and
binary are all served remotely. -/
def netC6 : Net := fun url =>
  if url = latestUrl then .response true "1.0"
  else if url = manifestUrl "1.0" then .response true "MANI"
  else if url = binaryUrl "1.0" "darwin-arm64" "claude" then .response true "BIN"
  else .transportError

def pathsC6 : PlatformPaths :=
  ⟨["home"], ["home", ".claude"], ["home", "vscode"], ["home", "certs"]⟩

/-- Filesystem fixture: the platform config tree carries a source settings
file, and a destination settings file already exists. -/
def fsC6 : FS :=
  [(["local", "MACOS", "USER-DIRECTORY", ".claude", "settings.json"], "SRC"),
   (["home", ".claude", "settings.json"], "DST")]

/-- Parser fixture for the get_manifest counterexample: only the local
manifest file's content parses. -/
def parseC5 : String → Option Json := fun s =>
  if s = "MANIFEST" then some Json.null else none

/-- Network fixture: the remote responds with a success status and a body
that does not parse. -/
def netC5 : Net := fun _ => .response true "garbage"

def fsC5 : FS := [(["local", "1.0", "manifest.json"], "MANIFEST")]

/-- A network that always serves the body "BIN" with a success status. -/
def netBin : Net := fun _ => .response true "BIN"

/-- A network that always serves the body "BINX" with a success status;
shaLen "BINX" does not hash to the expected "03" below. -/
def netBinX : Net := fun _ => .response true "BINX"

/-- A local fallback tree holding a binary whose shaLen digest is "03". -/
def fsLocalGood : FS := [(["local", "1.0", "linux-x64", "claude"], "BIN")]

/-- A local fallback tree holding a corrupted binary. -/
def fsLocalBad : FS := [(["local", "1.0", "linux-x64", "claude"], "BADBAD")]

/-- A local fallback tree holding only a version file. -/
def fsLatest : FS := [(["local", "latest"], "1.0")]

/-- Source object of the spec's override-law example. -/
def soC2 : List (String × Json) := [("b", .num 3), ("c", .num 4)]

/-- Destination object of the spec's override-law example. -/
def dobjC2 : List (String × Json) := [("a", .num 1), ("b", .num 2)]

def parseC2 : String → Option Json := fun s =>
  if s = "S2" then some (.obj soC2)
  else if s = "D2" then some (.obj dobjC2)
  else none

def fsC2 : FS := [(["s"], "S2"), (["d"], "D2")]

/-- Fixture with a non-object source root (an array). -/
def parseC10 : String → Option Json := fun s =>
  if s = "S10" then some (.arr [.num 1])
  else if s = "D10" then some (.obj dobjC2)
  else if s = "PRETTY" then some (.obj dobjC2)
  else none

def fsC10 : FS := [(["s"], "S10"), (["d"], "D10")]

def sjC8 : Json := .obj [("b", .num 3)]

def djC8 : Json := .obj [("a", .num 1)]

def parseC8 : String → Option Json := fun s =>
  if s = "S8" then some sjC8
  else if s = "D8" then some djC8
  else if s = "PRETTY" then some (mergeVal sjC8 djC8)
  else none

def fsC8 : FS := [(["s"], "S8"), (["d"], "D8")]

/-- Fixture for the uninstall frame claim: the installed binary plus a user
settings file that must survive the manual cleanup. -/
def fsC9 : FS :=
  [(["home", ".claude", "bin", "claude"], "BIN"),
   (["home", ".claude", "settings.json"], "KEEP")]

/-
Support lemmas about the filesystem model.
-/

theorem fsLookup_erase (fs : FS) (p q : Path) :
    fsLookup (fsErase fs p) q = if q = p then none else fsLookup fs q := by
  induction fs with
  | nil => simp [fsErase, fsLookup]
  | cons e rest ih =>
    obtain ⟨r, c⟩ := e
    by_cases hrp : r = p
    · subst hrp
      by_cases hqr : q = r
      · subst hqr; simp [fsErase, fsLookup] at ih ⊢; simpa using ih
      · simp [fsErase, fsLookup, hqr, Ne.symm hqr] at ih ⊢; simpa [hqr] using ih
    · by_cases hrq : r = q
      · subst hrq
        simp [fsErase, fsLookup, hrp]
      · simp [fsErase, fsLookup, hrp, hrq] at ih ⊢; exact ih

theorem fsLookup_erase_self (fs : FS) (p : Path) :
    fsLookup (fsErase fs p) p = none := by
  simp [fsLookup_erase]

theorem fsLookup_erase_ne (fs : FS) (p q : Path) (h : q ≠ p) :
    fsLookup (fsErase fs p) q = fsLookup fs q := by
  simp [fsLookup_erase, h]

theorem fsLookup_write_self (fs : FS) (p : Path) (c : String) :
    fsLookup (fsWrite fs p c) p = some c := by
  simp [fsWrite, fsLookup]

theorem fsLookup_write_ne (fs : FS) (p q : Path) (c : String) (h : q ≠ p) :
    fsLookup (fsWrite fs p c) q = fsLookup fs q := by
  simp [fsWrite, fsLookup, Ne.symm h, fsLookup_erase_ne fs p q h]

theorem fsErase_erase (fs : FS) (p : Path) :
    fsErase (fsErase fs p) p = fsErase fs p := by
  simp [fsErase, List.filter_filter]

theorem fsWrite_write (fs : FS) (p : Path) (c d : String) :
    fsWrite (fsWrite fs p c) p d = fsWrite fs p d := by
  simp [fsWrite, fsErase, List.filter_filter]

theorem fsLookup_removeDirAll (fs : FS) (p q : Path) :
    fsLookup (fsRemoveDirAll fs p) q =
      if List.isPrefixOf p q then none else fsLookup fs q := by
  induction fs with
  | nil => simp [fsRemoveDirAll, fsLookup]
  | cons e rest ih =>
    obtain ⟨r, c⟩ := e
    by_cases hpr : List.isPrefixOf p r
    · by_cases hrq : r = q
      · subst hrq; simp [fsRemoveDirAll, fsLookup, hpr] at ih ⊢; simpa [hpr] using ih
      · simp [fsRemoveDirAll, fsLookup, hpr, hrq] at ih ⊢; exact ih
    · by_cases hrq : r = q
      · subst hrq; simp [fsRemoveDirAll, fsLookup, hpr]
      · simp [fsRemoveDirAll, fsLookup, hpr, hrq] at ih ⊢; exact ih

theorem isPrefixOf_append_self (l₁ l₂ : List String) :
    List.isPrefixOf l₁ (l₁ ++ l₂) = true := by
  induction l₁ with
  | nil => cases l₂ <;> rfl
  | cons a as ih =>
    show (a == a && List.isPrefixOf as (as ++ l₂)) = true
    simp only [beq_self_eq_true, Bool.true_and, ih]

theorem isPrefixOf_trans_lists (l₁ l₂ l₃ : List String)
    (h1 : List.isPrefixOf l₁ l₂ = true) (h2 : List.isPrefixOf l₂ l₃ = true) :
    List.isPrefixOf l₁ l₃ = true := by
  induction l₁ generalizing l₂ l₃ with
  | nil => cases l₃ <;> rfl
  | cons a as ih =>
    cases l₂ with
    | nil => exact absurd h1 (by simp [List.isPrefixOf])
    | cons b bs =>
      cases l₃ with
      | nil => exact absurd h2 (by simp [List.isPrefixOf])
      | cons c cs =>
        simp only [List.isPrefixOf, Bool.and_eq_true, beq_iff_eq] at h1 h2 ⊢
        exact ⟨h1.1.trans h2.1, ih bs cs h1.2 h2.2⟩

theorem fsLookup_of_not_existsPath (fs : FS) (p q : Path)
    (h : existsPath fs p = false) (hpq : List.isPrefixOf p q = true) :
    fsLookup fs q = none := by
  induction fs with
  | nil => rfl
  | cons e rest ih =>
    obtain ⟨r, c⟩ := e
    simp only [existsPath, List.any_cons, Bool.or_eq_false_iff] at h
    by_cases hrq : r = q
    · subst hrq; exact absurd hpq (by simp [h.1])
    · simpa [fsLookup, hrq] using ih (by simpa [existsPath] using h.2)

/-
Support lemmas about the merge of JSON objects.
-/

theorem lookupKV_mapInsert (k q : String) (v : Json) (l : List (String × Json)) :
    lookupKV k (mapInsert q v l) = if q = k then some v else lookupKV k l := by
  induction l with
  | nil => simp [mapInsert, lookupKV]
  | cons e rest ih =>
    obtain ⟨a, b⟩ := e
    by_cases haq : a = q
    · subst haq
      by_cases hak : a = k <;> simp [mapInsert, lookupKV, hak]
    · by_cases hak : a = k
      · subst hak
        simp [mapInsert, lookupKV, haq, Ne.symm haq]
      · simp [mapInsert, lookupKV, haq, hak, ih]

theorem mapInsert_of_lookupKV_eq (k : String) (v : Json) (l : List (String × Json))
    (h : lookupKV k l = some v) : mapInsert k v l = l := by
  induction l with
  | nil => simp [lookupKV] at h
  | cons e rest ih =>
    obtain ⟨a, b⟩ := e
    by_cases hak : a = k
    · subst hak
      simp [lookupKV] at h
      simp [mapInsert, h]
    · simp [lookupKV, hak] at h
      simp [mapInsert, hak, ih h]

theorem lookupKV_eq_none_of_not_mem (k : String) (l : List (String × Json))
    (h : k ∉ l.map Prod.fst) : lookupKV k l = none := by
  induction l with
  | nil => rfl
  | cons e rest ih =>
    obtain ⟨a, b⟩ := e
    simp only [List.map_cons, List.mem_cons, not_or] at h
    have hak : a ≠ k := fun hh => h.1 hh.symm
    simp [lookupKV, hak, ih h.2]

theorem lookupKV_isSome_iff (k : String) (l : List (String × Json)) :
    (lookupKV k l).isSome = true ↔ k ∈ l.map Prod.fst := by
  induction l with
  | nil => simp [lookupKV]
  | cons e rest ih =>
    obtain ⟨a, b⟩ := e
    by_cases hak : a = k
    · simp [lookupKV, hak]
    · simp [lookupKV, hak, Ne.symm hak, ih]

theorem mergeObj_cons (a : String) (b : Json) (so d : List (String × Json)) :
    mergeObj ((a, b) :: so) d = mergeObj so (mapInsert a b d) := rfl

theorem lookupKV_mergeObj (so : List (String × Json))
    (hnd : (so.map Prod.fst).Nodup) (d : List (String × Json)) (k : String) :
    lookupKV k (mergeObj so d) = Option.or (lookupKV k so) (lookupKV k d) := by
  induction so generalizing d with
  | nil => simp [mergeObj, lookupKV, Option.or]
  | cons e so' ih =>
    obtain ⟨a, b⟩ := e
    simp only [List.map_cons, List.nodup_cons] at hnd
    rw [mergeObj_cons, ih hnd.2]
    by_cases hak : a = k
    · subst hak
      rw [lookupKV_eq_none_of_not_mem a so' hnd.1]
      simp [lookupKV, lookupKV_mapInsert, Option.or]
    · simp [lookupKV, hak, lookupKV_mapInsert]

theorem mergeObj_idem (so : List (String × Json))
    (hnd : (so.map Prod.fst).Nodup) (d : List (String × Json)) :
    mergeObj so (mergeObj so d) = mergeObj so d := by
  induction so generalizing d with
  | nil => simp [mergeObj]
  | cons e so' ih =>
    obtain ⟨a, b⟩ := e
    simp only [List.map_cons, List.nodup_cons] at hnd
    rw [mergeObj_cons, mergeObj_cons]
    have hl : lookupKV a (mergeObj so' (mapInsert a b d)) = some b := by
      rw [lookupKV_mergeObj so' hnd.2, lookupKV_eq_none_of_not_mem a so' hnd.1]
      simp [lookupKV_mapInsert, Option.or]
    rw [mapInsert_of_lookupKV_eq a b _ hl]
    exact ih hnd.2 (mapInsert a b d)

theorem mergeVal_idem (s d : Json) (hnd : s.topKeysNodup) :
    mergeVal s (mergeVal s d) = mergeVal s d := by
  cases s with
  | obj so =>
    cases d with
    | obj dobj => simp [mergeVal, mergeObj_idem so hnd dobj]
    | null => rfl
    | bool b => rfl
    | num n => rfl
    | str t => rfl
    | arr xs => rfl
  | null => cases d <;> rfl
  | bool b => cases d <;> rfl
  | num n => cases d <;> rfl
  | str t => cases d <;> rfl
  | arr xs => cases d <;> rfl

theorem mergeVal_of_not_both_obj (s d : Json)
    (h : s.isObj = false ∨ d.isObj = false) : mergeVal s d = d := by
  cases s <;> cases d <;> first
    | rfl
    | simp [Json.isObj] at h

/-
Support lemmas about the download layer.
-/

theorem download_local_fallback_absent (sha : String → Bytes)
    (version platform binary_name : String) (local_dir output_path : Path)
    (expected : String) (fs1 : FS)
    (h : fsLookup fs1 (localBinaryPath local_dir version platform binary_name) = none) :
    download_local_fallback sha version platform binary_name local_dir output_path
      expected fs1 = (.error .noFallback, fs1) := by
  simp [download_local_fallback, h]

theorem download_local_fallback_valid (sha : String → Bytes)
    (version platform binary_name : String) (local_dir output_path : Path)
    (expected : String) (fs1 : FS) (c : String)
    (h : fsLookup fs1 (localBinaryPath local_dir version platform binary_name) = some c)
    (he : hexEncode (sha c) = expected) :
    download_local_fallback sha version platform binary_name local_dir output_path
      expected fs1 = (.ok .LocalFallback, fsWrite fs1 output_path c) := by
  simp [download_local_fallback, h, verify_checksum, fsLookup_write_self, he]

theorem download_local_fallback_corrupt (sha : String → Bytes)
    (version platform binary_name : String) (local_dir output_path : Path)
    (expected : String) (fs1 : FS) (c : String)
    (h : fsLookup fs1 (localBinaryPath local_dir version platform binary_name) = some c)
    (he : hexEncode (sha c) ≠ expected) :
    download_local_fallback sha version platform binary_name local_dir output_path
      expected fs1 =
      (.error .localCorrupted, fsRemoveFile (fsWrite fs1 output_path c) output_path) := by
  have hb : (hexEncode (sha c) == expected) = false := by simp [he]
  simp [download_local_fallback, h, verify_checksum, fsLookup_write_self, hb]

theorem download_local_fallback_ok_inv (sha : String → Bytes)
    (version platform binary_name : String) (local_dir output_path : Path)
    (expected : String) (fs1 fs2 : FS) (src : DownloadSource)
    (h : download_local_fallback sha version platform binary_name local_dir output_path
      expected fs1 = (.ok src, fs2)) :
    ∃ c, fsLookup fs2 output_path = some c ∧ hexEncode (sha c) = expected := by
  rcases hl : fsLookup fs1 (localBinaryPath local_dir version platform binary_name) with
    _ | c
  · rw [download_local_fallback_absent _ _ _ _ _ _ _ _ hl] at h
    injection h with h1 h2
    exact Except.noConfusion h1
  · by_cases he : hexEncode (sha c) = expected
    · rw [download_local_fallback_valid _ _ _ _ _ _ _ _ c hl he] at h
      injection h with h1 h2
      subst h2
      exact ⟨c, fsLookup_write_self _ _ _, he⟩
    · rw [download_local_fallback_corrupt _ _ _ _ _ _ _ _ c hl he] at h
      injection h with h1 h2
      exact Except.noConfusion h1

theorem download_binary_transport_fail (sha : String → Bytes) (net : Net) (fs : FS)
    (version platform binary_name : String) (local_dir output_path : Path)
    (expected : String)
    (h : net (binaryUrl version platform binary_name) = .transportError) :
    download_binary sha net fs version platform binary_name local_dir output_path
      expected =
    download_local_fallback sha version platform binary_name local_dir output_path
      expected fs := by
  simp [download_binary, download_from_url, h]

theorem download_binary_status_fail (sha : String → Bytes) (net : Net) (fs : FS)
    (version platform binary_name : String) (local_dir output_path : Path)
    (expected body : String)
    (h : net (binaryUrl version platform binary_name) = .response false body) :
    download_binary sha net fs version platform binary_name local_dir output_path
      expected =
    download_local_fallback sha version platform binary_name local_dir output_path
      expected fs := by
  simp [download_binary, download_from_url, h]

theorem download_binary_midstream (sha : String → Bytes) (net : Net) (fs : FS)
    (version platform binary_name : String) (local_dir output_path : Path)
    (expected s : String)
    (h : net (binaryUrl version platform binary_name) = .midStream s) :
    download_binary sha net fs version platform binary_name local_dir output_path
      expected =
    download_local_fallback sha version platform binary_name local_dir output_path
      expected (fsWrite fs output_path s) := by
  simp [download_binary, download_from_url, h]

theorem download_binary_remote_valid (sha : String → Bytes) (net : Net) (fs : FS)
    (version platform binary_name : String) (local_dir output_path : Path)
    (expected body : String)
    (h : net (binaryUrl version platform binary_name) = .response true body)
    (he : hexEncode (sha body) = expected) :
    download_binary sha net fs version platform binary_name local_dir output_path
      expected = (.ok .Remote, fsWrite fs output_path body) := by
  simp [download_binary, download_from_url, h, verify_checksum, fsLookup_write_self, he]

theorem download_binary_remote_mismatch (sha : String → Bytes) (net : Net) (fs : FS)
    (version platform binary_name : String) (local_dir output_path : Path)
    (expected body : String)
    (h : net (binaryUrl version platform binary_name) = .response true body)
    (he : hexEncode (sha body) ≠ expected) :
    download_binary sha net fs version platform binary_name local_dir output_path
      expected =
    download_local_fallback sha version platform binary_name local_dir output_path
      expected (fsRemoveFile (fsWrite fs output_path body) output_path) := by
  have hb : (hexEncode (sha body) == expected) = false := by simp [he]
  simp [download_binary, download_from_url, h, verify_checksum, fsLookup_write_self, hb]

/-
Claim theorems.
-/

/-- Claim C7: verify_checksum returns Ok true exactly when the lowercase-hex
digest (sha standing for the sha2 crate's SHA-256) of the file's full
contents is byte-for-byte equal to expected — the comparison is plain
string equality, hence case-sensitive; on any other readable file it
returns Ok (the boolean comparison, i.e. false); the hex encoding uses only
digits and lowercase a..f; and the filesystem is returned unchanged (pure
read). -/
theorem verify_checksum_spec (sha : String → Bytes) (fs : FS) (p : Path)
    (expected : String) :
    (verify_checksum sha fs p expected).2 = fs
    ∧ (∀ c, fsLookup fs p = some c →
        (verify_checksum sha fs p expected).1 = .ok (hexEncode (sha c) == expected))
    ∧ ((verify_checksum sha fs p expected).1 = .ok true ↔
        ∃ c, fsLookup fs p = some c ∧ hexEncode (sha c) = expected)
    ∧ (∀ bs : Bytes, ∀ ch ∈ (hexEncode bs).data,
        ch.isDigit ∨ ('a' ≤ ch ∧ ch ≤ 'f')) := by
  refine ⟨?_, ?_, ?_, ?_⟩
  · cases h : fsLookup fs p <;> simp [verify_checksum, h]
  · intro c hc; simp [verify_checksum, hc]
  · cases h : fsLookup fs p with
    | none => simp [verify_checksum, h]
    | some c => simp [verify_checksum, h]
  · intro bs ch hch
    have hd : ∀ n, n < 16 → ((hexDigit n).isDigit ∨ ('a' ≤ hexDigit n ∧ hexDigit n ≤ 'f')) := by
      decide
    simp only [hexEncode, List.mem_flatMap] at hch
    obtain ⟨b, -, hb⟩ := hch
    simp only [List.mem_cons, List.not_mem_nil, or_false] at hb
    rcases hb with h | h
    · exact h ▸ hd _ (Nat.mod_lt _ (by norm_num))
    · exact h ▸ hd _ (Nat.mod_lt _ (by norm_num))

/-- Claim C7 witness at a concrete file. -/
theorem verify_checksum_spec_witness :
    fsLookup [(["f"], "X")] ["f"] = some "X"
    ∧ (verify_checksum shaLen [(["f"], "X")] ["f"] "01").2 = [(["f"], "X")]
    ∧ (verify_checksum shaLen [(["f"], "X")] ["f"] "01").1
        = .ok (hexEncode (shaLen "X") == "01") :=
  ⟨rfl, (verify_checksum_spec shaLen [(["f"], "X")] ["f"] "01").1,
    (verify_checksum_spec shaLen [(["f"], "X")] ["f"] "01").2.1 "X" rfl⟩

/-- Claim C2: when both files parse as JSON objects, merge_json_settings
writes back the pretty-printed merged object; in the merged object every
key of the source maps to the source's value in full, every key only in
the destination keeps the destination's value, and the key set is the
union of the two key sets.  (The source object, produced by serde_json,
has pairwise-distinct keys.) -/
theorem merge_json_settings_object_union
    (parse : String → Option Json) (pretty : Json → String) (fs : FS)
    (source dest : Path) (sc dc : String) (so dobj : List (String × Json))
    (hs : fsLookup fs source = some sc) (hd : fsLookup fs dest = some dc)
    (hps : parse sc = some (.obj so)) (hpd : parse dc = some (.obj dobj))
    (hnd : (so.map Prod.fst).Nodup) :
    merge_json_settings parse pretty fs source dest
      = (.ok (), fsWrite fs dest (pretty (.obj (mergeObj so dobj))))
    ∧ (∀ k v, lookupKV k so = some v → lookupKV k (mergeObj so dobj) = some v)
    ∧ (∀ k, lookupKV k so = none → lookupKV k (mergeObj so dobj) = lookupKV k dobj)
    ∧ (∀ k, k ∈ (mergeObj so dobj).map Prod.fst ↔
        k ∈ so.map Prod.fst ∨ k ∈ dobj.map Prod.fst) := by
  refine ⟨?_, ?_, ?_, ?_⟩
  · simp [merge_json_settings, hs, hd, hps, hpd, mergeVal]
  · intro k v hv
    rw [lookupKV_mergeObj so hnd dobj k, hv]
    rfl
  · intro k hk
    rw [lookupKV_mergeObj so hnd dobj k, hk]
    rfl
  · intro k
    rw [← lookupKV_isSome_iff, ← lookupKV_isSome_iff, ← lookupKV_isSome_iff,
      lookupKV_mergeObj so hnd dobj k]
    cases lookupKV k so <;> simp [Option.or]

/-- Claim C2 witness at the spec's override-law example. -/
theorem merge_json_settings_object_union_witness :
    fsLookup fsC2 ["s"] = some "S2"
    ∧ parseC2 "S2" = some (.obj soC2)
    ∧ parseC2 "D2" = some (.obj dobjC2)
    ∧ merge_json_settings parseC2 prettyW fsC2 ["s"] ["d"]
        = (.ok (), fsWrite fsC2 ["d"] (prettyW (.obj (mergeObj soC2 dobjC2))))
    ∧ lookupKV "b" (mergeObj soC2 dobjC2) = some (.num 3)
    ∧ lookupKV "c" (mergeObj soC2 dobjC2) = some (.num 4)
    ∧ lookupKV "a" (mergeObj soC2 dobjC2) = some (.num 1) := by
  have h := merge_json_settings_object_union parseC2 prettyW fsC2 ["s"] ["d"]
    "S2" "D2" soC2 dobjC2 rfl rfl rfl rfl (by decide)
  exact ⟨rfl, rfl, rfl, h.1, h.2.1 "b" (.num 3) rfl, h.2.1 "c" (.num 4) rfl,
    (h.2.2.1 "a" rfl).trans rfl⟩

/-- Claim C10: when both files parse but at least one root is not an
object, merge_json_settings still returns Ok, skips the merge, and merely
rewrites the destination as the pretty-printed form of its own parsed
document; re-parsing the rewritten destination yields the unchanged
document (serde_json round-trip as hypothesis hrt). -/
theorem merge_json_settings_non_object_skip
    (parse : String → Option Json) (pretty : Json → String) (fs : FS)
    (source dest : Path) (sc dc : String) (sj dj : Json)
    (hs : fsLookup fs source = some sc) (hd : fsLookup fs dest = some dc)
    (hps : parse sc = some sj) (hpd : parse dc = some dj)
    (hno : sj.isObj = false ∨ dj.isObj = false)
    (hrt : parse (pretty dj) = some dj) :
    merge_json_settings parse pretty fs source dest
      = (.ok (), fsWrite fs dest (pretty dj))
    ∧ fsLookup (fsWrite fs dest (pretty dj)) dest = some (pretty dj)
    ∧ parse (pretty dj) = some dj := by
  refine ⟨?_, fsLookup_write_self fs dest (pretty dj), hrt⟩
  simp [merge_json_settings, hs, hd, hps, hpd, mergeVal_of_not_both_obj sj dj hno]

/-- Claim C10 witness: an array-rooted source against an object-rooted
destination. -/
theorem merge_json_settings_non_object_skip_witness :
    fsLookup fsC10 ["s"] = some "S10"
    ∧ parseC10 "S10" = some (.arr [.num 1])
    ∧ parseC10 "D10" = some (.obj dobjC2)
    ∧ Json.isObj (.arr [.num 1]) = false
    ∧ merge_json_settings parseC10 prettyW fsC10 ["s"] ["d"]
        = (.ok (), fsWrite fsC10 ["d"] (prettyW (.obj dobjC2)))
    ∧ parseC10 (prettyW (.obj dobjC2)) = some (.obj dobjC2) := by
  have h := merge_json_settings_non_object_skip parseC10 prettyW fsC10 ["s"] ["d"]
    "S10" "D10" (.arr [.num 1]) (.obj dobjC2) rfl rfl rfl rfl (Or.inl rfl) rfl
  exact ⟨rfl, rfl, rfl, rfl, h.1, h.2.2⟩

/-- Claim C8: merging a fixed source into a destination and then merging
the same source into the result leaves the destination file (hence its
parsed document) exactly as after the first merge; hrt is the serde_json
round-trip property at the merged document. -/
theorem merge_json_settings_idem
    (parse : String → Option Json) (pretty : Json → String) (fs : FS)
    (source dest : Path) (sc dc : String) (sj dj : Json)
    (hsd : source ≠ dest)
    (hs : fsLookup fs source = some sc) (hd : fsLookup fs dest = some dc)
    (hps : parse sc = some sj) (hpd : parse dc = some dj)
    (hrt : parse (pretty (mergeVal sj dj)) = some (mergeVal sj dj))
    (hnd : sj.topKeysNodup) :
    merge_json_settings parse pretty
      (merge_json_settings parse pretty fs source dest).2 source dest
      = (.ok (), (merge_json_settings parse pretty fs source dest).2) := by
  have h1 : merge_json_settings parse pretty fs source dest
      = (.ok (), fsWrite fs dest (pretty (mergeVal sj dj))) := by
    simp [merge_json_settings, hs, hd, hps, hpd]
  rw [h1]
  have hs2 : fsLookup (fsWrite fs dest (pretty (mergeVal sj dj))) source = some sc :=
    (fsLookup_write_ne fs dest source _ hsd).trans hs
  have hd2 : fsLookup (fsWrite fs dest (pretty (mergeVal sj dj))) dest
      = some (pretty (mergeVal sj dj)) := fsLookup_write_self fs dest _
  simp [merge_json_settings, hs2, hd2, hps, hrt, mergeVal_idem sj dj hnd, fsWrite_write]

/-- Claim C8 witness at a concrete object pair. -/
theorem merge_json_settings_idem_witness :
    fsLookup fsC8 ["s"] = some "S8"
    ∧ parseC8 "S8" = some sjC8
    ∧ parseC8 "D8" = some djC8
    ∧ parseC8 (prettyW (mergeVal sjC8 djC8)) = some (mergeVal sjC8 djC8)
    ∧ merge_json_settings parseC8 prettyW
        (merge_json_settings parseC8 prettyW fsC8 ["s"] ["d"]).2 ["s"] ["d"]
        = (.ok (), (merge_json_settings parseC8 prettyW fsC8 ["s"] ["d"]).2) := by
  have h := merge_json_settings_idem parseC8 prettyW fsC8 ["s"] ["d"]
    "S8" "D8" sjC8 djC8 (by decide) rfl rfl rfl rfl rfl (by decide)
  exact ⟨rfl, rfl, rfl, rfl, h⟩

/-- Claim C1 (counterexample): a mid-stream transport failure with no local
fallback makes download_binary return an error while the partial body,
whose digest does not match the expected checksum, is left at output_path;
so the no-invalid-file invariant fails on this error path. -/
theorem download_binary_error_leaves_mismatched_file :
    (download_binary shaLen netMid [] "1.0" "linux-x64" "claude" ["local"] ["out"]
      "ff").1 = .error .noFallback
    ∧ fsLookup (download_binary shaLen netMid [] "1.0" "linux-x64" "claude" ["local"]
        ["out"] "ff").2 ["out"] = some "PARTIAL"
    ∧ hexEncode (shaLen "PARTIAL") ≠ "ff" :=
  ⟨rfl, rfl, by decide⟩

/-- Claim C1 (amended): whenever download_binary returns Ok, output_path
holds a file whose lowercase-hex digest equals expected_checksum. -/
theorem download_binary_ok_valid (sha : String → Bytes) (net : Net) (fs : FS)
    (version platform binary_name : String) (local_dir output_path : Path)
    (expected : String) (src : DownloadSource) (fs2 : FS)
    (h : download_binary sha net fs version platform binary_name local_dir output_path
      expected = (.ok src, fs2)) :
    ∃ c, fsLookup fs2 output_path = some c ∧ hexEncode (sha c) = expected := by
  rcases hn : net (binaryUrl version platform binary_name) with _ | ⟨ok, body⟩ | s
  · rw [download_binary_transport_fail sha net fs version platform binary_name
      local_dir output_path expected hn] at h
    exact download_local_fallback_ok_inv sha version platform binary_name local_dir
      output_path expected fs fs2 src h
  · cases ok with
    | false =>
      rw [download_binary_status_fail sha net fs version platform binary_name
        local_dir output_path expected body hn] at h
      exact download_local_fallback_ok_inv sha version platform binary_name local_dir
        output_path expected fs fs2 src h
    | true =>
      by_cases he : hexEncode (sha body) = expected
      · rw [download_binary_remote_valid sha net fs version platform binary_name
          local_dir output_path expected body hn he] at h
        injection h with h1 h2
        subst h2
        exact ⟨body, fsLookup_write_self _ _ _, he⟩
      · rw [download_binary_remote_mismatch sha net fs version platform binary_name
          local_dir output_path expected body hn he] at h
        exact download_local_fallback_ok_inv sha version platform binary_name local_dir
          output_path expected _ fs2 src h
  · rw [download_binary_midstream sha net fs version platform binary_name
      local_dir output_path expected s hn] at h
    exact download_local_fallback_ok_inv sha version platform binary_name local_dir
      output_path expected _ fs2 src h

/-- Claim C1 (amended) witness at a successful remote download. -/
theorem download_binary_ok_valid_witness :
    download_binary shaLen netBin [] "1.0" "linux-x64" "claude" ["local"] ["out"] "03"
      = (.ok .Remote, fsWrite [] ["out"] "BIN")
    ∧ fsLookup (fsWrite [] ["out"] "BIN") ["out"] = some "BIN"
    ∧ hexEncode (shaLen "BIN") = "03" := by
  obtain ⟨c, hc, he⟩ := download_binary_ok_valid shaLen netBin [] "1.0" "linux-x64"
    "claude" ["local"] ["out"] "03" .Remote (fsWrite [] ["out"] "BIN") rfl
  have h2 : some c = some "BIN" := hc.symm.trans rfl
  injection h2 with h3
  subst h3
  exact ⟨rfl, hc, he⟩

/-- Claim C4: a checksum mismatch of the remote body is non-fatal — the
output file is deleted and the local fallback block runs on the cleaned
state (so a valid local copy still succeeds as LocalFallback) — whereas a
checksum mismatch of the copied local fallback is fatal: the output file is
deleted and the call returns the local-corruption error; with no local
fallback the call errors with the output file deleted as well. -/
theorem download_binary_mismatch_asymmetry (sha : String → Bytes) (net : Net)
    (fs : FS) (version platform binary_name : String)
    (local_dir output_path : Path) (expected body : String)
    (hnet : net (binaryUrl version platform binary_name) = .response true body)
    (hmm : hexEncode (sha body) ≠ expected)
    (hne : localBinaryPath local_dir version platform binary_name ≠ output_path) :
    (download_binary sha net fs version platform binary_name local_dir output_path
        expected
      = download_local_fallback sha version platform binary_name local_dir
          output_path expected (fsRemoveFile (fsWrite fs output_path body) output_path))
    ∧ (∀ c, fsLookup fs (localBinaryPath local_dir version platform binary_name) = some c →
        hexEncode (sha c) = expected →
        download_binary sha net fs version platform binary_name local_dir output_path
          expected
          = (.ok .LocalFallback,
              fsWrite (fsRemoveFile (fsWrite fs output_path body) output_path)
                output_path c))
    ∧ (∀ c, fsLookup fs (localBinaryPath local_dir version platform binary_name) = some c →
        hexEncode (sha c) ≠ expected →
        (download_binary sha net fs version platform binary_name local_dir output_path
          expected).1 = .error .localCorrupted
        ∧ fsLookup (download_binary sha net fs version platform binary_name local_dir
            output_path expected).2 output_path = none)
    ∧ (fsLookup fs (localBinaryPath local_dir version platform binary_name) = none →
        (download_binary sha net fs version platform binary_name local_dir output_path
          expected).1 = .error .noFallback
        ∧ fsLookup (download_binary sha net fs version platform binary_name local_dir
            output_path expected).2 output_path = none) := by
  have hbase := download_binary_remote_mismatch sha net fs version platform binary_name
    local_dir output_path expected body hnet hmm
  have hlk : ∀ c, fsLookup fs (localBinaryPath local_dir version platform binary_name)
      = some c →
      fsLookup (fsRemoveFile (fsWrite fs output_path body) output_path)
        (localBinaryPath local_dir version platform binary_name) = some c := by
    intro c hc
    rw [fsRemoveFile, fsLookup_erase_ne _ _ _ hne, fsLookup_write_ne _ _ _ _ hne]
    exact hc
  have hlkn : fsLookup fs (localBinaryPath local_dir version platform binary_name)
      = none →
      fsLookup (fsRemoveFile (fsWrite fs output_path body) output_path)
        (localBinaryPath local_dir version platform binary_name) = none := by
    intro hc
    rw [fsRemoveFile, fsLookup_erase_ne _ _ _ hne, fsLookup_write_ne _ _ _ _ hne]
    exact hc
  refine ⟨hbase, ?_, ?_, ?_⟩
  · intro c hc he
    rw [hbase, download_local_fallback_valid sha version platform binary_name local_dir
      output_path expected _ c (hlk c hc) he]
  · intro c hc he
    rw [hbase, download_local_fallback_corrupt sha version platform binary_name local_dir
      output_path expected _ c (hlk c hc) he]
    exact ⟨rfl, fsLookup_erase_self _ _⟩
  · intro hc
    rw [hbase, download_local_fallback_absent sha version platform binary_name local_dir
      output_path expected _ (hlkn hc)]
    exact ⟨rfl, fsLookup_erase_self _ _⟩

/-- Claim C4 witness: the three scenarios (valid local, corrupt local, no
local) after a remote checksum mismatch, at concrete inputs. -/
theorem download_binary_mismatch_asymmetry_witness :
    netBinX (binaryUrl "1.0" "linux-x64" "claude") = .response true "BINX"
    ∧ hexEncode (shaLen "BINX") ≠ "03"
    ∧ download_binary shaLen netBinX fsLocalGood "1.0" "linux-x64" "claude" ["local"]
        ["out"] "03"
        = (.ok .LocalFallback,
            fsWrite (fsRemoveFile (fsWrite fsLocalGood ["out"] "BINX") ["out"])
              ["out"] "BIN")
    ∧ ((download_binary shaLen netBinX fsLocalBad "1.0" "linux-x64" "claude" ["local"]
        ["out"] "03").1 = .error .localCorrupted
      ∧ fsLookup (download_binary shaLen netBinX fsLocalBad "1.0" "linux-x64" "claude"
          ["local"] ["out"] "03").2 ["out"] = none)
    ∧ ((download_binary shaLen netBinX [] "1.0" "linux-x64" "claude" ["local"]
        ["out"] "03").1 = .error .noFallback
      ∧ fsLookup (download_binary shaLen netBinX [] "1.0" "linux-x64" "claude"
          ["local"] ["out"] "03").2 ["out"] = none) :=
  ⟨rfl, by decide,
    (download_binary_mismatch_asymmetry shaLen netBinX fsLocalGood "1.0" "linux-x64"
      "claude" ["local"] ["out"] "03" "BINX" rfl (by decide) (by decide)).2.1 "BIN"
      rfl (by decide),
    (download_binary_mismatch_asymmetry shaLen netBinX fsLocalBad "1.0" "linux-x64"
      "claude" ["local"] ["out"] "03" "BINX" rfl (by decide) (by decide)).2.2.1
      "BADBAD" rfl (by decide),
    (download_binary_mismatch_asymmetry shaLen netBinX [] "1.0" "linux-x64"
      "claude" ["local"] ["out"] "03" "BINX" rfl (by decide) (by decide)).2.2.2 rfl⟩

/-- Claim C3: for get_latest_version, get_manifest and download_binary, a
failing remote attempt together with a present valid local fallback yields
a LocalFallback success, and a failing remote attempt with no local
fallback yields the corresponding no-version / no-manifest / no-binary
error. -/
theorem fallback_ordering :
    (∀ (net : Net) (fs : FS) (local_dir : Path) (c : String),
        remoteFails net latestUrl →
        fsLookup fs (local_dir ++ ["latest"]) = some c →
        get_latest_version net fs local_dir = .ok (c.trim, .LocalFallback))
    ∧ (∀ (net : Net) (fs : FS) (local_dir : Path),
        remoteFails net latestUrl →
        fsLookup fs (local_dir ++ ["latest"]) = none →
        get_latest_version net fs local_dir = .error .noVersion)
    ∧ (∀ (parse : String → Option Json) (net : Net) (fs : FS) (version : String)
        (local_dir : Path) (c : String) (m : Json),
        remoteFails net (manifestUrl version) →
        fsLookup fs (local_dir ++ [version, "manifest.json"]) = some c →
        parse c = some m →
        get_manifest parse net fs version local_dir = .ok (m, .LocalFallback))
    ∧ (∀ (parse : String → Option Json) (net : Net) (fs : FS) (version : String)
        (local_dir : Path),
        remoteFails net (manifestUrl version) →
        fsLookup fs (local_dir ++ [version, "manifest.json"]) = none →
        get_manifest parse net fs version local_dir = .error .noManifest)
    ∧ (∀ (sha : String → Bytes) (net : Net) (fs : FS)
        (version platform binary_name : String) (local_dir output_path : Path)
        (expected c : String),
        remoteAttemptFails net (binaryUrl version platform binary_name) →
        localBinaryPath local_dir version platform binary_name ≠ output_path →
        fsLookup fs (localBinaryPath local_dir version platform binary_name) = some c →
        hexEncode (sha c) = expected →
        (download_binary sha net fs version platform binary_name local_dir output_path
          expected).1 = .ok .LocalFallback)
    ∧ (∀ (sha : String → Bytes) (net : Net) (fs : FS)
        (version platform binary_name : String) (local_dir output_path : Path)
        (expected : String),
        remoteAttemptFails net (binaryUrl version platform binary_name) →
        localBinaryPath local_dir version platform binary_name ≠ output_path →
        fsLookup fs (localBinaryPath local_dir version platform binary_name) = none →
        (download_binary sha net fs version platform binary_name local_dir output_path
          expected).1 = .error .noFallback) := by
  refine ⟨?_, ?_, ?_, ?_, ?_, ?_⟩
  · intro net fs local_dir c hr hc
    rcases hr with h | ⟨b, h⟩ <;> simp [get_latest_version, h, hc]
  · intro net fs local_dir hr hc
    rcases hr with h | ⟨b, h⟩ <;> simp [get_latest_version, h, hc]
  · intro parse net fs version local_dir c m hr hc hm
    rcases hr with h | ⟨b, h⟩ <;> simp [get_manifest, h, hc, hm]
  · intro parse net fs version local_dir hr hc
    rcases hr with h | ⟨b, h⟩ <;> simp [get_manifest, h, hc]
  · intro sha net fs version platform binary_name local_dir output_path expected c
      hr hne hc he
    rcases hr with (h | ⟨b, h⟩) | ⟨s, h⟩
    · rw [download_binary_transport_fail sha net fs version platform binary_name
        local_dir output_path expected h,
        download_local_fallback_valid sha version platform binary_name local_dir
          output_path expected fs c hc he]
    · rw [download_binary_status_fail sha net fs version platform binary_name
        local_dir output_path expected b h,
        download_local_fallback_valid sha version platform binary_name local_dir
          output_path expected fs c hc he]
    · rw [download_binary_midstream sha net fs version platform binary_name
        local_dir output_path expected s h,
        download_local_fallback_valid sha version platform binary_name local_dir
          output_path expected _ c
          ((fsLookup_write_ne fs output_path _ s hne).trans hc) he]
  · intro sha net fs version platform binary_name local_dir output_path expected
      hr hne hc
    rcases hr with (h | ⟨b, h⟩) | ⟨s, h⟩
    · rw [download_binary_transport_fail sha net fs version platform binary_name
        local_dir output_path expected h,
        download_local_fallback_absent sha version platform binary_name local_dir
          output_path expected fs hc]
    · rw [download_binary_status_fail sha net fs version platform binary_name
        local_dir output_path expected b h,
        download_local_fallback_absent sha version platform binary_name local_dir
          output_path expected fs hc]
    · rw [download_binary_midstream sha net fs version platform binary_name
        local_dir output_path expected s h,
        download_local_fallback_absent sha version platform binary_name local_dir
          output_path expected _
          ((fsLookup_write_ne fs output_path _ s hne).trans hc)]

/-- Claim C3 witness: all six behaviors at concrete inputs over a network
whose every request fails at transport level. -/
theorem fallback_ordering_witness :
    netDown latestUrl = .transportError
    ∧ get_latest_version netDown fsLatest ["local"] = .ok ("1.0".trim, .LocalFallback)
    ∧ get_latest_version netDown [] ["local"] = .error .noVersion
    ∧ get_manifest parseC5 netDown fsC5 "1.0" ["local"] = .ok (.null, .LocalFallback)
    ∧ get_manifest parseC5 netDown [] "1.0" ["local"] = .error .noManifest
    ∧ (download_binary shaLen netDown fsLocalGood "1.0" "linux-x64" "claude" ["local"]
        ["out"] "03").1 = .ok .LocalFallback
    ∧ (download_binary shaLen netDown [] "1.0" "linux-x64" "claude" ["local"]
        ["out"] "03").1 = .error .noFallback := by
  have h := fallback_ordering
  exact ⟨rfl,
    h.1 netDown fsLatest ["local"] "1.0" (Or.inl rfl) rfl,
    h.2.1 netDown [] ["local"] (Or.inl rfl) rfl,
    h.2.2.1 parseC5 netDown fsC5 "1.0" ["local"] "MANIFEST" .null (Or.inl rfl) rfl rfl,
    h.2.2.2.1 parseC5 netDown [] "1.0" ["local"] (Or.inl rfl) rfl,
    h.2.2.2.2.1 shaLen netDown fsLocalGood "1.0" "linux-x64" "claude" ["local"]
      ["out"] "03" "BIN" (Or.inl (Or.inl rfl)) (by decide) rfl (by decide),
    h.2.2.2.2.2 shaLen netDown [] "1.0" "linux-x64" "claude" ["local"]
      ["out"] "03" (Or.inl (Or.inl rfl)) (by decide) rfl⟩

/-- Claim C5 (counterexample): the remote responds with a success status
and an unparsable body while a present, parsable local manifest exists,
yet get_manifest returns the parse error instead of falling back. -/
theorem get_manifest_no_fallback_on_parse_failure :
    get_manifest parseC5 netC5 fsC5 "1.0" ["local"] = .error .parseError
    ∧ fsLookup fsC5 (["local"] ++ ["1.0", "manifest.json"]) = some "MANIFEST"
    ∧ parseC5 "MANIFEST" = some .null
    ∧ netC5 (manifestUrl "1.0") = .response true "garbage"
    ∧ parseC5 "garbage" = none :=
  ⟨rfl, rfl, rfl, rfl, rfl⟩

/-- Claim C5 (amended): get_manifest consults the local fallback only when
the remote request fails or returns a non-success status; a success-status
response with an unparsable body propagates the parse error immediately,
and on a failing request the present parsable local manifest is used. -/
theorem get_manifest_fallback_shape (parse : String → Option Json) (net : Net)
    (fs : FS) (version : String) (local_dir : Path) (body : String) :
    (net (manifestUrl version) = .response true body → parse body = none →
      get_manifest parse net fs version local_dir = .error .parseError)
    ∧ (∀ c m, remoteFails net (manifestUrl version) →
        fsLookup fs (local_dir ++ [version, "manifest.json"]) = some c →
        parse c = some m →
        get_manifest parse net fs version local_dir = .ok (m, .LocalFallback)) := by
  constructor
  · intro hn hp
    simp [get_manifest, hn, hp]
  · intro c m hr hc hm
    rcases hr with h | ⟨b, h⟩ <;> simp [get_manifest, h, hc, hm]

/-- Claim C5 (amended) witness: both halves at concrete inputs. -/
theorem get_manifest_fallback_shape_witness :
    netC5 (manifestUrl "1.0") = .response true "garbage"
    ∧ parseC5 "garbage" = none
    ∧ get_manifest parseC5 netC5 fsC5 "1.0" ["local"] = .error .parseError
    ∧ netDown (manifestUrl "1.0") = .transportError
    ∧ get_manifest parseC5 netDown fsC5 "1.0" ["local"] = .ok (.null, .LocalFallback) :=
  ⟨rfl, rfl,
    (get_manifest_fallback_shape parseC5 netC5 fsC5 "1.0" ["local"] "garbage").1 rfl rfl,
    rfl,
    (get_manifest_fallback_shape parseC5 netDown fsC5 "1.0" ["local"] "garbage").2
      "MANIFEST" .null (Or.inl rfl) rfl rfl⟩

/-- Claim C6 (counterexample): with version, manifest and binary all
resolving and the vendor installer succeeding, a destination settings file
that fails to parse makes deploy_configs — and therefore the whole install
— return an error: not every failure inside config deployment is
non-fatal. -/
theorem install_fails_on_config_parse_error :
    (install shaLen netC6 parseC6 prettyW importCertOk setEnvOk runProcOk codeRunOk
      addPathOk .macos "darwin-arm64" "claude" ["local"] pathsC6 fsC6).1
      = .error .parseError
    ∧ parseC6 "SRC" = some .null
    ∧ parseC6 "DST" = none := by
  refine ⟨?_, rfl, rfl⟩
  have htrim : ("1.0".trim) = "1.0" := by
    have h1 : Substring.takeWhileAux "1.0" ⟨3⟩ Char.isWhitespace ⟨0⟩ = ⟨0⟩ := by
      unfold Substring.takeWhileAux; decide
    have h2 : Substring.takeRightWhileAux "1.0" ⟨0⟩ Char.isWhitespace ⟨3⟩ = ⟨3⟩ := by
      unfold Substring.takeRightWhileAux; decide
    show ("1.0".toSubstring.trim).toString = "1.0"
    rw [show "1.0".toSubstring = ⟨"1.0", ⟨0⟩, ⟨3⟩⟩ from rfl]
    show (Substring.trim ⟨"1.0", ⟨0⟩, ⟨3⟩⟩).toString = "1.0"
    unfold Substring.trim
    simp only []
    rw [h1, h2]
    rfl
  have hv : get_latest_version netC6 fsC6 ["local"] = .ok ("1.0", .Remote) := by
    show Except.ok ("1.0".trim, DownloadSource.Remote) = .ok ("1.0", .Remote)
    rw [htrim]
  unfold install
  rw [hv]
  rfl

/-- Claim C6 (amended): missing config sources are skipped and
certificate-import failures never influence the result of config
deployment; but not every failure inside deploy_configs is non-fatal (see
the counterexample: parse errors propagate and fail the install). -/
theorem deploy_configs_nonfatal_parts :
    (∀ (parse : String → Option Json) (pretty : Json → String)
        (ic ic' : Path → Except Err Unit) (se : String → Path → Except Err Unit)
        (os : OS) (local_dir : Path) (paths : PlatformPaths) (fs : FS),
        deploy_configs parse pretty ic se os local_dir paths fs
          = deploy_configs parse pretty ic' se os local_dir paths fs)
    ∧ (∀ (parse : String → Option Json) (pretty : Json → String) (config_dir : Path)
        (paths : PlatformPaths) (fs : FS),
        fsLookup fs (config_dir ++ [".claude", "settings.json"]) = none →
        deploy_claude_settings parse pretty config_dir paths fs = (.ok (), fs))
    ∧ (∀ (parse : String → Option Json) (pretty : Json → String) (os : OS)
        (config_dir : Path) (paths : PlatformPaths) (fs : FS),
        fsLookup fs (get_vscode_settings_source os config_dir) = none →
        fsLookup fs (config_dir ++ ["vscode-settings.json"]) = none →
        deploy_vscode_settings parse pretty os config_dir paths fs = (.ok (), fs)) := by
  refine ⟨?_, ?_, ?_⟩
  · intro parse pretty ic ic' se os local_dir paths fs
    rfl
  · intro parse pretty config_dir paths fs h
    simp [deploy_claude_settings, h]
  · intro parse pretty os config_dir paths fs h1 h2
    simp [deploy_vscode_settings, h1, h2]

/-- Claim C6 (amended) witness: concrete instances of the three non-fatal
behaviors, an always-failing certificate importer included. -/
theorem deploy_configs_nonfatal_parts_witness :
    deploy_configs parseC5 prettyW importCertOk setEnvOk .macos ["local"] pathsC6 []
      = deploy_configs parseC5 prettyW importCertFail setEnvOk .macos ["local"]
          pathsC6 []
    ∧ deploy_claude_settings parseC5 prettyW ["cfg"] pathsC6 [] = (.ok (), [])
    ∧ deploy_vscode_settings parseC5 prettyW .macos ["cfg"] pathsC6 [] = (.ok (), []) :=
  ⟨deploy_configs_nonfatal_parts.1 parseC5 prettyW importCertOk importCertFail
      setEnvOk .macos ["local"] pathsC6 [],
    deploy_configs_nonfatal_parts.2.1 parseC5 prettyW ["cfg"] pathsC6 [] rfl,
    deploy_configs_nonfatal_parts.2.2 parseC5 prettyW .macos ["cfg"] pathsC6 [] rfl rfl⟩

/-- Claim C9: when the installed binary exists but its own uninstaller
fails (cannot launch or exits non-zero), the manual cleanup deletes exactly
the installed binary and the bin subtree of the tool-config directory:
everything outside that subtree keeps its contents, everything inside it is
gone, and uninstall still returns Ok.  (hcfg records that every platform's
get_paths sets claude_config_dir to home_dir/.claude, so the installed
binary lies inside the deleted bin subtree.) -/
theorem uninstall_manual_cleanup_frame
    (runProc : Path → String → Option Bool) (binary_name : String)
    (paths : PlatformPaths) (fs : FS) (bc : String)
    (hcfg : paths.claude_config_dir = paths.home_dir ++ [".claude"])
    (hbin : fsLookup fs (paths.home_dir ++ [".claude", "bin", binary_name]) = some bc)
    (hfail : runProc (paths.home_dir ++ [".claude", "bin", binary_name]) "uninstall"
      ≠ some true) :
    (uninstall runProc binary_name paths fs).1 = .ok ()
    ∧ (∀ q, List.isPrefixOf (paths.claude_config_dir ++ ["bin"]) q = false →
        fsLookup (uninstall runProc binary_name paths fs).2 q = fsLookup fs q)
    ∧ (∀ q, List.isPrefixOf (paths.claude_config_dir ++ ["bin"]) q = true →
        fsLookup (uninstall runProc binary_name paths fs).2 q = none) := by
  have e1 : paths.claude_config_dir ++ ["bin"] = paths.home_dir ++ [".claude", "bin"] := by
    rw [hcfg, List.append_assoc]
    rfl
  have e2 : paths.home_dir ++ [".claude", "bin", binary_name]
      = (paths.home_dir ++ [".claude", "bin"]) ++ [binary_name] := by
    rw [List.append_assoc]
    rfl
  have hpx : List.isPrefixOf (paths.claude_config_dir ++ ["bin"])
      (paths.home_dir ++ [".claude", "bin", binary_name]) = true := by
    rw [e1, e2]
    exact isPrefixOf_append_self _ _
  have hcases : uninstall runProc binary_name paths fs
      = (.ok (), if existsPath (fsErase fs (paths.home_dir ++ [".claude", "bin", binary_name]))
            paths.claude_config_dir
          then fsRemoveDirAll
              (fsErase fs (paths.home_dir ++ [".claude", "bin", binary_name]))
              (paths.claude_config_dir ++ ["bin"])
          else fsErase fs (paths.home_dir ++ [".claude", "bin", binary_name])) := by
    rcases hr : runProc (paths.home_dir ++ [".claude", "bin", binary_name]) "uninstall"
      with _ | b
    · simp [uninstall, hbin, hr, fsRemoveFile]
    · cases b
      · simp [uninstall, hbin, hr, fsRemoveFile]
      · exact absurd hr hfail
  rw [hcases]
  refine ⟨rfl, ?_, ?_⟩
  · intro q hq
    have hqbp : q ≠ paths.home_dir ++ [".claude", "bin", binary_name] := by
      intro he
      rw [he, hpx] at hq
      cases hq
    by_cases hex : existsPath
        (fsErase fs (paths.home_dir ++ [".claude", "bin", binary_name]))
        paths.claude_config_dir = true
    · simp only [hex, if_true]
      rw [fsLookup_removeDirAll, hq, if_neg (by simp)]
      exact fsLookup_erase_ne fs _ q hqbp
    · simp only [hex, if_false, Bool.false_eq_true]
      exact fsLookup_erase_ne fs _ q hqbp
  · intro q hq
    by_cases hex : existsPath
        (fsErase fs (paths.home_dir ++ [".claude", "bin", binary_name]))
        paths.claude_config_dir = true
    · simp only [hex, if_true]
      rw [fsLookup_removeDirAll, hq]
      rfl
    · simp only [hex, if_false, Bool.false_eq_true]
      have hpq : List.isPrefixOf paths.claude_config_dir q = true :=
        isPrefixOf_trans_lists paths.claude_config_dir
          (paths.claude_config_dir ++ ["bin"]) q
          (isPrefixOf_append_self _ _) hq
      exact fsLookup_of_not_existsPath _ _ _ (by simpa using hex) hpq

/-- Claim C9 witness: a failing vendor uninstaller, a user settings file
that survives, and the bin subtree removed. -/
theorem uninstall_manual_cleanup_frame_witness :
    fsLookup fsC9 (["home"] ++ [".claude", "bin", "claude"]) = some "BIN"
    ∧ runProcFail (["home"] ++ [".claude", "bin", "claude"]) "uninstall" ≠ some true
    ∧ (uninstall runProcFail "claude" pathsC6 fsC9).1 = .ok ()
    ∧ fsLookup (uninstall runProcFail "claude" pathsC6 fsC9).2
        ["home", ".claude", "settings.json"] = fsLookup fsC9 ["home", ".claude", "settings.json"]
    ∧ fsLookup (uninstall runProcFail "claude" pathsC6 fsC9).2
        ["home", ".claude", "bin", "claude"] = none := by
  have h := uninstall_manual_cleanup_frame runProcFail "claude" pathsC6 fsC9 "BIN"
    rfl rfl (by decide)
  exact ⟨rfl, by decide, h.1,
    h.2.1 ["home", ".claude", "settings.json"] (by decide),
    h.2.2 ["home", ".claude", "bin", "claude"] (by decide)⟩

end CodeAssist
